import Mathlib

/-!
Shallow embedding of `src/rpi5_ws2812/ws2812.py`: the `Color` value type,
the `Strip` pixel buffer, and the `WS2812SpiDriver` SPI bus driver with its
3-bit-per-data-bit lookup-table encoder.

Machine bytes are modelled as `Nat` (the Python ints stored in `bytearray` /
`numpy.uint8` buffers are always in `0..255` at the points the theorems touch,
stated as explicit hypotheses where needed).  Mutation is modelled by explicit
state passing; a Python exception is an `Option PyError` / `Except PyError`
result, and a method that can leave a partially mutated buffer behind returns
the mutated state alongside the error.
-/

set_option autoImplicit false
set_option maxRecDepth 8000

namespace WS2812

/-- Python exception kinds raised by the code under study. -/
inductive PyError where
  | indexError
  | valueError (msg : String)
  deriving Repr, DecidableEq

/-- `class Color`: an RGB or RGBW color; `w` defaults to `0`. -/
structure Color where
  r : Nat
  g : Nat
  b : Nat
  w : Nat := 0
  deriving Repr, DecidableEq

/-- The all-off color `Color(0, 0, 0, 0)`. -/
def Color.zero : Color := ⟨0, 0, 0, 0⟩

/-! ## The SPI encoder (`WS2812SpiDriver._init_spi_lookup`) -/

/-- `int(bit_string, 2)`: pack a list of bits (MSB first) into a number. -/
def packBits (bits : List Nat) : Nat := bits.foldl (fun a b => 2 * a + b) 0

/-- The 8 bits of `byte_val`, MSB first: `(byte_val >> i) & 1` for `i = 7..0`. -/
def byteBits (v : Nat) : List Nat := (List.range 8).map (fun i => (v >>> (7 - i)) &&& 1)

/-- The bit pattern written for one data bit: `'110' if bit else '100'`. -/
def bitPattern (b : Nat) : List Nat := if b = 1 then [1, 1, 0] else [1, 0, 0]

/-- One entry of the SPI lookup table: expand each of the 8 bits of `v`
(MSB first) to its 3-bit pattern, concatenate to a 24-bit string and pack it
into 3 bytes, as in `_init_spi_lookup`. -/
def encodeByte (v : Nat) : List Nat :=
  let bits := ((byteBits v).map bitPattern).flatten
  [packBits (bits.take 8), packBits ((bits.drop 8).take 8), packBits ((bits.drop 16).take 8)]

/-- `_SPI_LOOKUP`: the 256-entry table, entry `v` holding `encodeByte v`. -/
def SPI_LOOKUP : List (List Nat) := (List.range 256).map encodeByte

/-- `_SPI_LOOKUP[byte_val]` (table lookup; inputs are `uint8`, so `< 256`). -/
def spiLookup (v : Nat) : List Nat := SPI_LOOKUP.getD v []

/-- Unpack one byte into its 8 bits, MSB first (for stating the round-trip). -/
def unpackByte (v : Nat) : List Nat := byteBits v

/-- Decode a flat bit list through the fixed mapping: each group of 3 bus bits
decodes to `1` when it is `110` and to `0` when it is `100`. -/
def decodeBits : List Nat → List Nat
  | b0 :: b1 :: b2 :: rest =>
      (if [b0, b1, b2] = [1, 1, 0] then 1 else 0) :: decodeBits rest
  | _ => []

/-! ## The SPI driver (`WS2812SpiDriver`) -/

/-- `PREAMBLE`: number of leading zero bytes before the pixel data. -/
def PREAMBLE : Nat := 42

/-- State of a `WS2812SpiDriver`: the two pre-allocated buffers plus a log of
every `writebytes2` bus transfer issued, in order. -/
structure WS2812SpiDriver where
  led_count : Nat
  has_white : Bool
  spi_buffer : List Nat
  clear_buffer : List Nat
  transfers : List (List Nat)
  deriving Repr, DecidableEq

namespace WS2812SpiDriver

/-- `self._bytes_per_pixel = 4 if has_white else 3`. -/
def bytes_per_pixel (has_white : Bool) : Nat := if has_white then 4 else 3

/-- `WS2812SpiDriver.__init__`: allocate the zeroed clear buffer and SPI
buffer of `PREAMBLE + led_count * bytes_per_pixel * 3` bytes each. -/
def init (led_count : Nat) (has_white : Bool) : WS2812SpiDriver :=
  let spi_bytes := led_count * bytes_per_pixel has_white * 3
  { led_count := led_count
    has_white := has_white
    spi_buffer := List.replicate (PREAMBLE + spi_bytes) 0
    clear_buffer := List.replicate (PREAMBLE + spi_bytes) 0
    transfers := [] }

/-- Python `bytearray` slice assignment `buf[lo:hi] = seg` (for `lo ≤ hi`). -/
def sliceAssign (buf : List Nat) (lo hi : Nat) (seg : List Nat) : List Nat :=
  buf.take lo ++ seg ++ buf.drop hi

/-- The loop body of `write`: for each byte, look up its encoding and store it
at `buf[offset:offset+3]`, advancing `offset` by 3. -/
def writeLoop (buf : List Nat) (off : Nat) : List Nat → List Nat
  | [] => buf
  | v :: rest => writeLoop (sliceAssign buf off (off + 3) (spiLookup v)) (off + 3) rest

/-- `write(buffer)`: encode the flattened colors into the SPI buffer starting
at offset `PREAMBLE`, then issue one `writebytes2` of the whole SPI buffer. -/
def write (s : WS2812SpiDriver) (flat : List Nat) : WS2812SpiDriver :=
  let newBuf := writeLoop s.spi_buffer PREAMBLE flat
  { s with spi_buffer := newBuf, transfers := s.transfers ++ [newBuf] }

/-- `clear()`: one `writebytes2` of the pre-built clear buffer. -/
def clear (s : WS2812SpiDriver) : WS2812SpiDriver :=
  { s with transfers := s.transfers ++ [s.clear_buffer] }

/-- `get_led_count()`. -/
def get_led_count (s : WS2812SpiDriver) : Nat := s.led_count

end WS2812SpiDriver

/-! ## The pixel buffer (`Strip`) -/

/-- State of a `Strip`.  `brightness` is a rational standing for the Python
float (only ever set to exact clamps of caller values, never computed with). -/
structure Strip where
  led_count : Nat
  brightness : ℚ
  has_white : Bool
  pixels : List Color
  deriving Repr, DecidableEq

namespace Strip

/-- `Strip.__init__`: led count from the backend, brightness 1.0, all pixels
`Color(0, 0, 0, 0)`. -/
def init (backend : WS2812SpiDriver) (has_white : Bool) : Strip :=
  { led_count := backend.get_led_count
    brightness := 1
    has_white := has_white
    pixels := List.replicate backend.get_led_count Color.zero }

/-- Python list item assignment `l[i] = x` for an `int` index: non-negative
indices must be `< len(l)`, negative indices wrap from the end (`l[-1]` is the
last element), anything else raises `IndexError`. -/
def pySetItem (l : List Color) (i : Int) (x : Color) : Except PyError (List Color) :=
  if 0 ≤ i ∧ i < (l.length : Int) then .ok (l.set i.toNat x)
  else if -(l.length : Int) ≤ i ∧ i < 0 then .ok (l.set ((l.length : Int) + i).toNat x)
  else .error .indexError

/-- `set_pixel_color(i, color)`: `self._pixels[i] = color`.  On `IndexError`
the buffer is unchanged. -/
def set_pixel_color (s : Strip) (i : Int) (color : Color) : Strip × Option PyError :=
  match pySetItem s.pixels i color with
  | .ok px => ({ s with pixels := px }, none)
  | .error e => (s, some e)

/-- An element of the `colors` list passed to `set_pixels_batch`: a `Color`,
a tuple/list of channel values, or a value of any other type. -/
inductive ColorArg where
  | col (c : Color)
  | tup (vals : List Nat)
  | other
  deriving Repr, DecidableEq

/-- The tuple branch of `set_pixels_batch`:
`Color(color[0], color[1], color[2], color[3])` when `len(color) >= 4`,
else `Color(color[0], color[1], color[2], 0)`.  Python tuple indexing
`color[k]` succeeds exactly when `k < len(color)`, so the else branch
succeeds exactly on length 3 and shorter tuples raise `IndexError` (the
`getD` defaults are never reached on the success paths). -/
def colorOfTuple (vals : List Nat) : Except PyError Color :=
  if 4 ≤ vals.length then
    .ok ⟨vals.getD 0 0, vals.getD 1 0, vals.getD 2 0, vals.getD 3 0⟩
  else if 3 ≤ vals.length then
    .ok ⟨vals.getD 0 0, vals.getD 1 0, vals.getD 2 0, 0⟩
  else .error .indexError

/-- The loop of `set_pixels_batch`: `idx = start + i`; break (no error) once
`idx >= led_count`; store `Color`s directly, convert tuples, raise
`ValueError` on anything else.  Returns the pixel list as mutated so far
together with the exception, if one was raised. -/
def batchLoop (count : Nat) (pixels : List Color) (idx : Nat) :
    List ColorArg → List Color × Option PyError
  | [] => (pixels, none)
  | a :: rest =>
    if count ≤ idx then (pixels, none)
    else
      match a with
      | .col c => batchLoop count (pixels.set idx c) (idx + 1) rest
      | .tup vals =>
        match colorOfTuple vals with
        | .ok c => batchLoop count (pixels.set idx c) (idx + 1) rest
        | .error e => (pixels, some e)
      | .other => (pixels, some (.valueError "Invalid color type"))

/-- `set_pixels_batch(start, colors)`.  On an exception the writes made before
it persist (the Python list is mutated in place). -/
def set_pixels_batch (s : Strip) (start : Nat) (colors : List ColorArg) :
    Strip × Option PyError :=
  let r := batchLoop s.led_count s.pixels start colors
  ({ s with pixels := r.1 }, r.2)

/-- Row of a `(n, 4)` array as a `Color` (all four channels). -/
def rowColor4 (row : List Nat) : Color :=
  ⟨row.getD 0 0, row.getD 1 0, row.getD 2 0, row.getD 3 0⟩

/-- Row of a `(n, 3)` array as a `Color` (white channel 0). -/
def rowColor3 (row : List Nat) : Color :=
  ⟨row.getD 0 0, row.getD 1 0, row.getD 2 0, 0⟩

/-- The write loop of `set_pixels_array`:
`for i in range(n_actual): self._pixels[start + i] = mk(rgbw_array[i])`. -/
def arrayLoop (pixels : List Color) (start : Nat) (rows : List (List Nat))
    (nActual : Nat) (mk : List Nat → Color) : List Color :=
  (List.range nActual).foldl (fun px i => px.set (start + i) (mk (rows.getD i []))) pixels

/-- `set_pixels_array(start, rgbw_array)`: the array has `rows.length` rows of
`ncols` columns; `end = min(start + n_pixels, led_count)`; dispatch on the
column count, raising `ValueError` (before any write) when it is not 3 or 4. -/
def set_pixels_array (s : Strip) (start : Nat) (ncols : Nat)
    (rows : List (List Nat)) : Strip × Option PyError :=
  let n_pixels := rows.length
  let endIdx := min (start + n_pixels) s.led_count
  let n_actual := endIdx - start
  if ncols = 4 then
    ({ s with pixels := arrayLoop s.pixels start rows n_actual rowColor4 }, none)
  else if ncols = 3 then
    ({ s with pixels := arrayLoop s.pixels start rows n_actual rowColor3 }, none)
  else
    (s, some (.valueError "Invalid array shape"))

/-- The flattened `uint8` channel bytes `show()` builds in `_pixel_buffer`
and hands to `backend.write`: for each pixel GRBW order when `has_white`,
else GRB order.  Brightness is not consulted. -/
def showFlat (s : Strip) : List Nat :=
  ((List.range s.led_count).map (fun i =>
    let p := s.pixels.getD i Color.zero
    if s.has_white then [p.g, p.r, p.b, p.w] else [p.g, p.r, p.b])).flatten

/-- `show()` (renamed: `show` is a Lean keyword): build the channel-ordered
buffer and hand it to the backend's `write`. -/
def showPixels (s : Strip) (backend : WS2812SpiDriver) : WS2812SpiDriver :=
  backend.write (showFlat s)

/-- `clear()`: reset every pixel to `Color(0, 0, 0, 0)` and call
`self._backend.clear()`. -/
def clear (s : Strip) (backend : WS2812SpiDriver) : Strip × WS2812SpiDriver :=
  ({ s with pixels := List.replicate s.led_count Color.zero }, backend.clear)

/-- `set_brightness(brightness)`: store `max(min(brightness, 1.0), 0.0)`. -/
def set_brightness (s : Strip) (brightness : ℚ) : Strip :=
  { s with brightness := max (min brightness 1) 0 }

/-- `get_brightness()`. -/
def get_brightness (s : Strip) : ℚ := s.brightness

/-- `num_pixels()`. -/
def num_pixels (s : Strip) : Nat := s.led_count

/-- `set_all_pixels(color)`: `self._pixels = [color] * self._led_count`. -/
def set_all_pixels (s : Strip) (color : Color) : Strip :=
  { s with pixels := List.replicate s.led_count color }

/-- `has_white_channel()`. -/
def has_white_channel (s : Strip) : Bool := s.has_white

/-- A `colors` element `set_pixels_batch` handles without an exception:
a `Color`, or a tuple/list of at least 3 channel values. -/
def goodArg : ColorArg → Bool
  | .col _ => true
  | .tup vals => 3 ≤ vals.length
  | .other => false

/-- The color `set_pixels_batch` stores for a handled element: a `Color` as
is; a tuple of length at least 4 contributes its first four values as
r, g, b, w, a 3-tuple gets white 0. -/
def argColor : ColorArg → Color
  | .col c => c
  | .tup vals => if 4 ≤ vals.length then rowColor4 vals else rowColor3 vals
  | .other => Color.zero

end Strip

/-- The buffer-size invariant of a driver state: both pre-allocated buffers
have `PREAMBLE + led_count * bytes_per_pixel * 3` bytes. -/
def WS2812SpiDriver.buffersOk (s : WS2812SpiDriver) : Prop :=
  s.spi_buffer.length
      = PREAMBLE + s.led_count * WS2812SpiDriver.bytes_per_pixel s.has_white * 3
  ∧ s.clear_buffer.length
      = PREAMBLE + s.led_count * WS2812SpiDriver.bytes_per_pixel s.has_white * 3

/-! ## Concrete states used to exercise the theorems -/

/-- A sample color. -/
def cA : Color := ⟨1, 2, 3, 4⟩

/-- A sample color. -/
def cB : Color := ⟨5, 6, 7, 8⟩

/-- A sample color. -/
def cC : Color := ⟨11, 12, 13, 14⟩

/-- A sample color. -/
def cD : Color := ⟨21, 22, 23, 24⟩

/-- A sample color written over existing pixels. -/
def cNew : Color := ⟨9, 9, 9, 9⟩

/-- A 2-LED RGB strip holding two distinct known pixels. -/
def stripTwo : Strip := ⟨2, 1, false, [cA, cB]⟩

/-- A freshly initialized 5-LED RGB strip. -/
def stripFive : Strip := Strip.init (WS2812SpiDriver.init 5 false) false

/-- A freshly initialized 3-LED RGBW strip. -/
def stripThreeW : Strip := Strip.init (WS2812SpiDriver.init 3 true) true

/-- The 2-LED RGB strip of the `set_all(Color(10,20,30))` scenario. -/
def stripAll : Strip :=
  (Strip.init (WS2812SpiDriver.init 2 false) false).set_all_pixels ⟨10, 20, 30, 0⟩

/-! ## Helper lemmas -/

theorem getD_eq_getElem {α : Type} (l : List α) (j : Nat) (d : α) (h : j < l.length) :
    l.getD j d = l[j] := by
  rw [List.getD_eq_getElem?_getD, List.getElem?_eq_getElem h, Option.getD_some]

theorem getD_set_self {α : Type} (l : List α) (k : Nat) (x d : α) (h : k < l.length) :
    (l.set k x).getD k d = x := by
  rw [getD_eq_getElem _ _ _ (by simpa using h)]
  simp [List.getElem_set, h]

theorem getD_set_ne {α : Type} (l : List α) (k j : Nat) (x d : α) (h : k ≠ j) :
    (l.set k x).getD j d = l.getD j d := by
  rw [List.getD_eq_getElem?_getD, List.getD_eq_getElem?_getD, List.getElem?_set_ne h]

/-- Entry `v` of the lookup table is the encoding of `v`. -/
theorem spiLookup_eq {v : Nat} (h : v < 256) : spiLookup v = encodeByte v := by
  unfold spiLookup SPI_LOOKUP
  rw [List.getD_eq_getElem?_getD, List.getElem?_map, List.getElem?_range h]
  rfl

/-- Every table entry is 3 bytes. -/
theorem spiLookup_length {v : Nat} (h : v < 256) : (spiLookup v).length = 3 := by
  rw [spiLookup_eq h]; rfl

theorem encodeByte_unpack (v : Nat) (h : v < 256) :
    ((encodeByte v).map unpackByte).flatten = ((byteBits v).map bitPattern).flatten := by
  revert h; revert v; decide

theorem encodeByte_decode (v : Nat) (h : v < 256) :
    decodeBits ((encodeByte v).map unpackByte).flatten = byteBits v := by
  revert h; revert v; decide

theorem packBits_byteBits (v : Nat) (h : v < 256) : packBits (byteBits v) = v := by
  revert h; revert v; decide

/-- C2: for every byte value `v`, the table's 3-byte expansion of `v` is the
MSB-first concatenation of the 3-bit patterns of `v`'s 8 bits (bit 1 → 110,
bit 0 → 100), and decoding the 24 encoded bits through that fixed mapping
reproduces the 8 bits of `v` (packing them back yields `v` itself). -/
theorem C2_encoder_roundtrip (v : Nat) (h : v < 256) :
    ((spiLookup v).map unpackByte).flatten = ((byteBits v).map bitPattern).flatten
    ∧ decodeBits ((spiLookup v).map unpackByte).flatten = byteBits v
    ∧ packBits (decodeBits ((spiLookup v).map unpackByte).flatten) = v := by
  rw [spiLookup_eq h, encodeByte_decode v h]
  exact ⟨encodeByte_unpack v h, rfl, packBits_byteBits v h⟩

/-- C2 at the concrete value `0xA5` of the spec scenario. -/
theorem C2_encoder_roundtrip_witness :
    (0xA5 : Nat) < 256
    ∧ (((spiLookup 0xA5).map unpackByte).flatten
          = ((byteBits 0xA5).map bitPattern).flatten
        ∧ decodeBits ((spiLookup 0xA5).map unpackByte).flatten = byteBits 0xA5
        ∧ packBits (decodeBits ((spiLookup 0xA5).map unpackByte).flatten) = 0xA5) :=
  ⟨by decide, C2_encoder_roundtrip 0xA5 (by decide)⟩

/-! ## The write path of the driver -/

theorem flatten_lookup_length (flat : List Nat) (h : ∀ v ∈ flat, v < 256) :
    ((flat.map spiLookup).flatten).length = 3 * flat.length := by
  induction flat with
  | nil => simp
  | cons v rest ih =>
    simp only [List.map_cons, List.flatten_cons, List.length_append, List.length_cons]
    rw [spiLookup_length (h v (by simp)), ih (fun x hx => h x (by simp [hx]))]
    ring

/-- The encoding loop of `write` overwrites `buf[off : off + 3 * flat.length]`
with the concatenated 3-byte encodings and leaves the rest of `buf` alone. -/
theorem writeLoop_spec (flat : List Nat) : ∀ (buf : List Nat) (off : Nat),
    (∀ v ∈ flat, v < 256) → off + 3 * flat.length ≤ buf.length →
    WS2812SpiDriver.writeLoop buf off flat
      = buf.take off ++ (flat.map spiLookup).flatten ++ buf.drop (off + 3 * flat.length) := by
  induction flat with
  | nil =>
    intro buf off _ _
    simp [WS2812SpiDriver.writeLoop, List.take_append_drop]
  | cons v rest ih =>
    intro buf off hv hlen
    have hv0 : v < 256 := hv v (by simp)
    have hsl : (spiLookup v).length = 3 := spiLookup_length hv0
    have hlen' : off + 3 + 3 * rest.length ≤ buf.length := by
      simp only [List.length_cons] at hlen; omega
    have hA : (buf.take off ++ spiLookup v).length = off + 3 := by
      simp [hsl]; omega
    have step : WS2812SpiDriver.writeLoop buf off (v :: rest)
        = WS2812SpiDriver.writeLoop
            (buf.take off ++ spiLookup v ++ buf.drop (off + 3)) (off + 3) rest := rfl
    have hbuf' : (buf.take off ++ spiLookup v ++ buf.drop (off + 3)).length = buf.length := by
      simp [hsl]; omega
    rw [step, ih _ _ (fun x hx => hv x (by simp [hx])) (by omega)]
    have htake : (buf.take off ++ spiLookup v ++ buf.drop (off + 3)).take (off + 3)
        = buf.take off ++ spiLookup v :=
      List.take_left' hA
    have hdrop : (buf.take off ++ spiLookup v ++ buf.drop (off + 3)).drop
          (off + 3 + 3 * rest.length)
        = buf.drop (off + 3 + 3 * rest.length) := by
      rw [show off + 3 + 3 * rest.length
            = (buf.take off ++ spiLookup v).length + 3 * rest.length by omega,
        List.drop_append, List.drop_drop, hA]
    rw [htake, hdrop]
    rw [show off + 3 * (v :: rest).length = off + 3 + 3 * rest.length by
      simp only [List.length_cons]; ring]
    simp [List.append_assoc]

/-- Positions `3*i .. 3*i+2` of the concatenated encodings hold the encoding
of byte `i` of the input. -/
theorem flatten_lookup_get (flat : List Nat) : ∀ i,
    (∀ v ∈ flat, v < 256) → i < flat.length →
    (((flat.map spiLookup).flatten).drop (3 * i)).take 3 = spiLookup (flat.getD i 0) := by
  induction flat with
  | nil => intro i _ hi; simp at hi
  | cons v rest ih =>
    intro i hv hi
    match i with
    | 0 =>
      simp only [List.map_cons, List.flatten_cons, Nat.mul_zero, List.drop_zero,
        List.getD_cons_zero]
      rw [List.take_left' (spiLookup_length (hv v (by simp)))]
    | i + 1 =>
      simp only [List.map_cons, List.flatten_cons, List.getD_cons_succ]
      rw [show 3 * (i + 1) = (spiLookup v).length + 3 * i by
            rw [spiLookup_length (hv v (by simp))]; ring,
        List.drop_append]
      exact ih i (fun x hx => hv x (by simp [hx])) (by simpa using hi)

/-- C1: on a freshly constructed driver, `write` with a flat byte array of
length `led_count * bytes_per_pixel` fills the transmit buffer with the
preamble zeros followed by the 3-byte table encoding of each byte at offset
`PREAMBLE + 3 * index`, and issues exactly one bus transfer, of the full
transmit buffer. -/
theorem C1_write_encodes (n : Nat) (hw : Bool) (flat : List Nat)
    (hlen : flat.length = n * WS2812SpiDriver.bytes_per_pixel hw)
    (hvals : ∀ v ∈ flat, v < 256) :
    ((WS2812SpiDriver.init n hw).write flat).spi_buffer
        = List.replicate PREAMBLE 0 ++ (flat.map spiLookup).flatten
    ∧ (∀ i, i < flat.length →
        ((((WS2812SpiDriver.init n hw).write flat).spi_buffer.drop
            (PREAMBLE + 3 * i)).take 3) = spiLookup (flat.getD i 0))
    ∧ ((WS2812SpiDriver.init n hw).write flat).transfers
        = [((WS2812SpiDriver.init n hw).write flat).spi_buffer] := by
  have hbuflen : (WS2812SpiDriver.init n hw).spi_buffer.length
      = PREAMBLE + 3 * flat.length := by
    simp [WS2812SpiDriver.init, hlen]; ring
  have hmain : ((WS2812SpiDriver.init n hw).write flat).spi_buffer
      = List.replicate PREAMBLE 0 ++ (flat.map spiLookup).flatten := by
    show WS2812SpiDriver.writeLoop (WS2812SpiDriver.init n hw).spi_buffer PREAMBLE flat = _
    rw [writeLoop_spec flat _ PREAMBLE hvals (by omega)]
    have h1 : (WS2812SpiDriver.init n hw).spi_buffer.take PREAMBLE
        = List.replicate PREAMBLE 0 := by
      simp only [WS2812SpiDriver.init, List.take_replicate]
      congr 1
      omega
    have h2 : (WS2812SpiDriver.init n hw).spi_buffer.drop (PREAMBLE + 3 * flat.length)
        = [] := by
      rw [← hbuflen, List.drop_length]
    rw [h1, h2, List.append_nil]
  refine ⟨hmain, ?_, ?_⟩
  · intro i hi
    rw [hmain, show PREAMBLE + 3 * i = (List.replicate PREAMBLE (0 : Nat)).length + 3 * i by
        simp, List.drop_append]
    exact flatten_lookup_get flat i hvals hi
  · simp [WS2812SpiDriver.write, WS2812SpiDriver.init]

/-- C1 in the end-to-end scenario: 1 RGBW LED set to `Color(255, 0, 0, 128)`,
whose GRBW channel bytes are `[0, 255, 0, 128]`. -/
theorem C1_write_encodes_witness :
    ([0, 255, 0, 128] : List Nat).length
        = 1 * WS2812SpiDriver.bytes_per_pixel true
    ∧ (((WS2812SpiDriver.init 1 true).write [0, 255, 0, 128]).spi_buffer
        = List.replicate PREAMBLE 0 ++ (([0, 255, 0, 128] : List Nat).map spiLookup).flatten
    ∧ (∀ i, i < ([0, 255, 0, 128] : List Nat).length →
        ((((WS2812SpiDriver.init 1 true).write [0, 255, 0, 128]).spi_buffer.drop
            (PREAMBLE + 3 * i)).take 3)
          = spiLookup (([0, 255, 0, 128] : List Nat).getD i 0))
    ∧ ((WS2812SpiDriver.init 1 true).write [0, 255, 0, 128]).transfers
        = [((WS2812SpiDriver.init 1 true).write [0, 255, 0, 128]).spi_buffer]) :=
  ⟨by decide, C1_write_encodes 1 true [0, 255, 0, 128] (by decide) (by decide)⟩

/-! ## Buffer-size invariant -/

/-- C8: both pre-allocated buffers of a fresh driver have
`PREAMBLE + led_count * bytes_per_pixel * 3` bytes, and that size is
preserved by every `write` of a correctly sized input and by every
`clear`. -/
theorem C8_buffer_sizes (n : Nat) (hw : Bool) :
    (WS2812SpiDriver.init n hw).buffersOk
    ∧ (∀ s : WS2812SpiDriver, s.led_count = n → s.has_white = hw → s.buffersOk →
        ∀ flat : List Nat, flat.length = n * WS2812SpiDriver.bytes_per_pixel hw →
          (∀ v ∈ flat, v < 256) → (s.write flat).buffersOk)
    ∧ (∀ s : WS2812SpiDriver, s.buffersOk → s.clear.buffersOk) := by
  refine ⟨⟨by simp [WS2812SpiDriver.init, WS2812SpiDriver.buffersOk],
            by simp [WS2812SpiDriver.init, WS2812SpiDriver.buffersOk]⟩, ?_, ?_⟩
  · intro s hn hw' hok flat hflat hvals
    obtain ⟨h1, h2⟩ := hok
    have hlen3 : s.spi_buffer.length = PREAMBLE + 3 * flat.length := by
      rw [h1, hn, hw', hflat]; ring
    constructor
    · show (WS2812SpiDriver.writeLoop s.spi_buffer PREAMBLE flat).length
        = PREAMBLE + s.led_count * WS2812SpiDriver.bytes_per_pixel s.has_white * 3
      rw [writeLoop_spec flat s.spi_buffer PREAMBLE hvals (by omega)]
      simp only [List.length_append, List.length_take, List.length_drop,
        flatten_lookup_length flat hvals]
      omega
    · exact h2
  · intro s hok
    exact hok

/-- C8 exercised on a fresh 1-LED RGBW driver with one write and one clear. -/
theorem C8_buffer_sizes_witness :
    (WS2812SpiDriver.init 1 true).buffersOk
    ∧ ((WS2812SpiDriver.init 1 true).write [0, 255, 0, 128]).buffersOk
    ∧ (WS2812SpiDriver.init 1 true).clear.buffersOk :=
  ⟨(C8_buffer_sizes 1 true).1,
   (C8_buffer_sizes 1 true).2.1 _ rfl rfl (C8_buffer_sizes 1 true).1
     [0, 255, 0, 128] (by decide) (by decide),
   (C8_buffer_sizes 1 true).2.2 _ (C8_buffer_sizes 1 true).1⟩

/-! ## clear -/

/-- C7: `clear()` resets every pixel to `Color(0,0,0,0)` regardless of the
prior buffer state and transmits the pre-built all-off buffer (not the `show`
path); a second `clear()` transmits the identical all-off buffer again and
leaves the same buffer state. -/
theorem C7_clear_idempotent (s : Strip) (d : WS2812SpiDriver) :
    (Strip.clear s d).1.pixels = List.replicate s.led_count Color.zero
    ∧ (Strip.clear s d).2.transfers = d.transfers ++ [d.clear_buffer]
    ∧ (Strip.clear s d).2.clear_buffer = d.clear_buffer
    ∧ (Strip.clear (Strip.clear s d).1 (Strip.clear s d).2).1.pixels
        = (Strip.clear s d).1.pixels
    ∧ (Strip.clear (Strip.clear s d).1 (Strip.clear s d).2).2.transfers
        = d.transfers ++ [d.clear_buffer] ++ [d.clear_buffer] := by
  refine ⟨rfl, rfl, rfl, ?_, ?_⟩ <;> simp [Strip.clear, WS2812SpiDriver.clear]

/-! ## show -/

theorem map_range_getD {α β : Type} (l : List α) (d : α) (f : α → β) :
    (List.range l.length).map (fun i => f (l.getD i d)) = l.map f := by
  apply List.ext_getElem
  · simp
  · intro i h1 h2
    simp only [List.getElem_map, List.getElem_range]
    rw [getD_eq_getElem l i d (by simpa using h2)]

/-- C3: `show()` hands the bus driver exactly the per-LED channel bytes in
G,R,B(,W) order, with no brightness scaling: the flat bytes are independent
of any brightness set beforehand. -/
theorem C3_show_brightness_neutral (s : Strip) (hlen : s.pixels.length = s.led_count) :
    Strip.showFlat s
      = (s.pixels.map (fun p =>
          if s.has_white then [p.g, p.r, p.b, p.w] else [p.g, p.r, p.b])).flatten
    ∧ (∀ b : ℚ, Strip.showFlat (s.set_brightness b) = Strip.showFlat s)
    ∧ (∀ d : WS2812SpiDriver, Strip.showPixels s d = d.write (Strip.showFlat s)) := by
  refine ⟨?_, fun b => rfl, fun d => rfl⟩
  have h := map_range_getD s.pixels Color.zero
    (fun p => if s.has_white then [p.g, p.r, p.b, p.w] else [p.g, p.r, p.b])
  unfold Strip.showFlat
  rw [← hlen]
  exact congrArg List.flatten h

/-- C3 on the spec scenario: 2 RGB LEDs after `set_all(Color(10, 20, 30))`,
whose flat channel bytes are `[20,10,30, 20,10,30]`. -/
theorem C3_show_brightness_neutral_witness :
    stripAll.pixels.length = stripAll.led_count
    ∧ (Strip.showFlat stripAll
        = (stripAll.pixels.map (fun p =>
            if stripAll.has_white then [p.g, p.r, p.b, p.w] else [p.g, p.r, p.b])).flatten
      ∧ (∀ b : ℚ, Strip.showFlat (stripAll.set_brightness b) = Strip.showFlat stripAll)
      ∧ (∀ d : WS2812SpiDriver, Strip.showPixels stripAll d
            = d.write (Strip.showFlat stripAll)))
    ∧ Strip.showFlat stripAll = [20, 10, 30, 20, 10, 30] :=
  ⟨by decide, C3_show_brightness_neutral stripAll (by decide), by decide⟩

/-! ## Brightness -/

/-- C9: `set_brightness(v)` stores the clamp of `v` into `[0,1]` (`v` itself
when `0 ≤ v ≤ 1`, otherwise the nearest bound), `get_brightness()` returns
it, and no other field of the strip changes. -/
theorem C9_brightness_clamp (s : Strip) (v : ℚ) :
    (0 ≤ v → v ≤ 1 → (s.set_brightness v).get_brightness = v)
    ∧ (v < 0 → (s.set_brightness v).get_brightness = 0)
    ∧ (1 < v → (s.set_brightness v).get_brightness = 1)
    ∧ 0 ≤ (s.set_brightness v).get_brightness
    ∧ (s.set_brightness v).get_brightness ≤ 1
    ∧ (s.set_brightness v).pixels = s.pixels
    ∧ (s.set_brightness v).led_count = s.led_count
    ∧ (s.set_brightness v).has_white = s.has_white := by
  have hval : (s.set_brightness v).get_brightness = max (min v 1) 0 := rfl
  refine ⟨?_, ?_, ?_, ?_, ?_, rfl, rfl, rfl⟩
  · intro h0 h1
    rw [hval, min_eq_left h1, max_eq_left h0]
  · intro h
    rw [hval, min_eq_left (le_trans h.le zero_le_one), max_eq_right h.le]
  · intro h
    rw [hval, min_eq_right h.le]
    exact max_eq_left zero_le_one
  · rw [hval]
    exact le_max_right _ _
  · rw [hval]
    exact max_le (min_le_right _ _) zero_le_one

/-- C9 at the out-of-range value 2 (clamped to 1) on a concrete strip. -/
theorem C9_brightness_clamp_witness :
    ((0 : ℚ) ≤ 2 → (2 : ℚ) ≤ 1 → (stripTwo.set_brightness 2).get_brightness = 2)
    ∧ ((2 : ℚ) < 0 → (stripTwo.set_brightness 2).get_brightness = 0)
    ∧ ((1 : ℚ) < 2 → (stripTwo.set_brightness 2).get_brightness = 1)
    ∧ 0 ≤ (stripTwo.set_brightness 2).get_brightness
    ∧ (stripTwo.set_brightness 2).get_brightness ≤ 1
    ∧ (stripTwo.set_brightness 2).pixels = stripTwo.pixels
    ∧ (stripTwo.set_brightness 2).led_count = stripTwo.led_count
    ∧ (stripTwo.set_brightness 2).has_white = stripTwo.has_white :=
  C9_brightness_clamp stripTwo 2

/-! ## Single-pixel set -/

/-- C4 (amended): for `0 ≤ i < led_count`, `set_pixel_color` replaces pixel
`i` (read-back yields the new color, all other pixels unchanged, no error);
for `i ≥ led_count` or `i < -led_count` it raises `IndexError` and the whole
strip state is unchanged; a negative `i` with `-led_count ≤ i < 0` does not
fail but wraps Python-style to pixel `led_count + i`. -/
theorem C4_set_pixel (s : Strip) (i : Int) (c : Color)
    (hlen : s.pixels.length = s.led_count) :
    (0 ≤ i → i < (s.led_count : Int) →
        Strip.set_pixel_color s i c = ({ s with pixels := s.pixels.set i.toNat c }, none)
        ∧ (s.pixels.set i.toNat c).getD i.toNat Color.zero = c
        ∧ (∀ j : Nat, j ≠ i.toNat →
            (s.pixels.set i.toNat c).getD j Color.zero = s.pixels.getD j Color.zero))
    ∧ ((i < -(s.led_count : Int) ∨ (s.led_count : Int) ≤ i) →
        Strip.set_pixel_color s i c = (s, some .indexError))
    ∧ (-(s.led_count : Int) ≤ i → i < 0 →
        Strip.set_pixel_color s i c
          = ({ s with pixels := s.pixels.set ((s.led_count : Int) + i).toNat c }, none)) := by
  have hcast : (s.pixels.length : Int) = (s.led_count : Int) := by exact_mod_cast hlen
  refine ⟨?_, ?_, ?_⟩
  · intro h0 hlt
    have hpy : Strip.pySetItem s.pixels i c = .ok (s.pixels.set i.toNat c) := by
      unfold Strip.pySetItem
      rw [if_pos ⟨h0, by omega⟩]
    refine ⟨by simp only [Strip.set_pixel_color, hpy], ?_, ?_⟩
    · exact getD_set_self _ _ _ _ (by omega)
    · intro j hj
      exact getD_set_ne _ _ _ _ _ (fun h => hj h.symm)
  · intro h
    have hpy : Strip.pySetItem s.pixels i c = .error .indexError := by
      unfold Strip.pySetItem
      rw [if_neg (by omega), if_neg (by omega)]
    simp only [Strip.set_pixel_color, hpy]
  · intro hge hneg
    have hpy : Strip.pySetItem s.pixels i c
        = .ok (s.pixels.set ((s.pixels.length : Int) + i).toNat c) := by
      unfold Strip.pySetItem
      rw [if_neg (by omega), if_pos ⟨by omega, hneg⟩]
    rw [hcast] at hpy
    simp only [Strip.set_pixel_color, hpy]

/-- C4 counterexample: on the 2-LED strip, index `-1` lies outside
`[0, led_count)` yet `set_pixel_color` raises nothing and overwrites the
last pixel, contradicting the claim that every out-of-bounds index fails
with `IndexError` and leaves the buffer unchanged. -/
theorem C4_counterexample :
    ((-1 : Int) < 0 ∨ (stripTwo.led_count : Int) ≤ (-1 : Int))
    ∧ Strip.set_pixel_color stripTwo (-1) cNew
        = ({ stripTwo with pixels := [cA, cNew] }, none)
    ∧ (Strip.set_pixel_color stripTwo (-1) cNew).2 ≠ some PyError.indexError
    ∧ (Strip.set_pixel_color stripTwo (-1) cNew).1.pixels ≠ stripTwo.pixels := by
  refine ⟨Or.inl (by decide), by decide, by decide, by decide⟩

/-- C4 (amended) exercised at the in-bounds index 0 and the out-of-bounds
index 5 on the concrete 2-LED strip. -/
theorem C4_set_pixel_witness :
    (stripTwo.pixels.length = stripTwo.led_count)
    ∧ ((0 ≤ (0 : Int) → (0 : Int) < (stripTwo.led_count : Int) →
        Strip.set_pixel_color stripTwo 0 cNew
            = ({ stripTwo with pixels := stripTwo.pixels.set (0 : Int).toNat cNew }, none)
        ∧ (stripTwo.pixels.set (0 : Int).toNat cNew).getD (0 : Int).toNat Color.zero = cNew
        ∧ (∀ j : Nat, j ≠ (0 : Int).toNat →
            (stripTwo.pixels.set (0 : Int).toNat cNew).getD j Color.zero
              = stripTwo.pixels.getD j Color.zero))
      ∧ (((0 : Int) < -(stripTwo.led_count : Int) ∨ (stripTwo.led_count : Int) ≤ (0 : Int)) →
          Strip.set_pixel_color stripTwo 0 cNew = (stripTwo, some .indexError))
      ∧ (-(stripTwo.led_count : Int) ≤ (0 : Int) → (0 : Int) < 0 →
          Strip.set_pixel_color stripTwo 0 cNew
            = ({ stripTwo with
                  pixels := stripTwo.pixels.set ((stripTwo.led_count : Int) + 0).toNat cNew },
                none))) :=
  ⟨by decide, C4_set_pixel stripTwo 0 cNew (by decide)⟩

/-! ## Batch set -/

/-- The batch loop on a list of `Color` elements: never raises, keeps the
pixel-list length, writes `colors[k]` at `idx + k` for the positions that
fall inside the buffer and leaves everything else unchanged. -/
theorem batchLoop_col (colors : List Color) : ∀ (count : Nat) (pixels : List Color) (idx : Nat),
    pixels.length = count →
    (Strip.batchLoop count pixels idx (colors.map Strip.ColorArg.col)).2 = none
    ∧ (Strip.batchLoop count pixels idx (colors.map Strip.ColorArg.col)).1.length = count
    ∧ ∀ j, j < count →
        (Strip.batchLoop count pixels idx (colors.map Strip.ColorArg.col)).1.getD j Color.zero
          = if idx ≤ j ∧ j - idx < colors.length
            then colors.getD (j - idx) Color.zero
            else pixels.getD j Color.zero := by
  induction colors with
  | nil =>
    intro count pixels idx hlen
    refine ⟨rfl, hlen, ?_⟩
    intro j hj
    rw [if_neg (by simp)]
    rfl
  | cons c cs ih =>
    intro count pixels idx hlen
    by_cases hbreak : count ≤ idx
    · have heq : Strip.batchLoop count pixels idx ((c :: cs).map Strip.ColorArg.col)
          = (pixels, none) := by
        simp [Strip.batchLoop, hbreak]
      refine ⟨by rw [heq], by rw [heq]; exact hlen, ?_⟩
      intro j hj
      rw [heq, if_neg (by omega)]
    · have hidx : idx < count := Nat.lt_of_not_le hbreak
      have heq : Strip.batchLoop count pixels idx ((c :: cs).map Strip.ColorArg.col)
          = Strip.batchLoop count (pixels.set idx c) (idx + 1) (cs.map Strip.ColorArg.col) := by
        simp [Strip.batchLoop, hbreak]
      have hlen' : (pixels.set idx c).length = count := by simp [hlen]
      obtain ⟨e1, e2, e3⟩ := ih count (pixels.set idx c) (idx + 1) hlen'
      refine ⟨by rw [heq]; exact e1, by rw [heq]; exact e2, ?_⟩
      intro j hj
      rw [heq, e3 j hj]
      by_cases hji : j = idx
      · subst hji
        rw [if_neg (by omega), if_pos ⟨Nat.le_refl j, by simp only [List.length_cons]; omega⟩,
          Nat.sub_self, List.getD_cons_zero, getD_set_self _ _ _ _ (by omega)]
      · by_cases hcase : idx + 1 ≤ j ∧ j - (idx + 1) < cs.length
        · rw [if_pos hcase, if_pos ⟨by omega, by simp only [List.length_cons]; omega⟩,
            show j - idx = (j - (idx + 1)) + 1 by omega, List.getD_cons_succ]
        · rw [if_neg hcase, if_neg (by simp only [List.length_cons]; omega),
            getD_set_ne _ _ _ _ _ (fun h => hji h.symm)]

/-- C5: `set_pixels_batch(start, colors)` on a list of `Color`s raises no
error, keeps the buffer length, writes `colors[k]` to pixel `start + k`
exactly for the positions `start + k < led_count` (silently ignoring the
rest of the list), and leaves every other pixel unchanged. -/
theorem C5_batch_clamp (s : Strip) (start : Nat) (colors : List Color)
    (hlen : s.pixels.length = s.led_count) (hstart : start < s.led_count) :
    (s.set_pixels_batch start (colors.map Strip.ColorArg.col)).2 = none
    ∧ (s.set_pixels_batch start (colors.map Strip.ColorArg.col)).1.pixels.length = s.led_count
    ∧ (s.set_pixels_batch start (colors.map Strip.ColorArg.col)).1.led_count = s.led_count
    ∧ ∀ j, j < s.led_count →
        (s.set_pixels_batch start (colors.map Strip.ColorArg.col)).1.pixels.getD j Color.zero
          = if start ≤ j ∧ j - start < colors.length
            then colors.getD (j - start) Color.zero
            else s.pixels.getD j Color.zero := by
  obtain ⟨e1, e2, e3⟩ := batchLoop_col colors s.led_count s.pixels start hlen
  exact ⟨e1, e2, rfl, e3⟩

/-- C5 on the spec scenario: led_count 5, `set_batch(3, [c1,c2,c3,c4])`
writes pixels 3 and 4 and silently ignores the last two colors. -/
theorem C5_batch_clamp_witness :
    (stripFive.pixels.length = stripFive.led_count ∧ 3 < stripFive.led_count)
    ∧ ((stripFive.set_pixels_batch 3 ([cA, cB, cC, cD].map Strip.ColorArg.col)).2 = none
      ∧ (stripFive.set_pixels_batch 3 ([cA, cB, cC, cD].map Strip.ColorArg.col)).1.pixels.length
          = stripFive.led_count
      ∧ (stripFive.set_pixels_batch 3 ([cA, cB, cC, cD].map Strip.ColorArg.col)).1.led_count
          = stripFive.led_count
      ∧ ∀ j, j < stripFive.led_count →
          (stripFive.set_pixels_batch 3
              ([cA, cB, cC, cD].map Strip.ColorArg.col)).1.pixels.getD j Color.zero
            = if 3 ≤ j ∧ j - 3 < ([cA, cB, cC, cD] : List Color).length
              then ([cA, cB, cC, cD] : List Color).getD (j - 3) Color.zero
              else stripFive.pixels.getD j Color.zero)
    ∧ (stripFive.set_pixels_batch 3 ([cA, cB, cC, cD].map Strip.ColorArg.col)).1.pixels
        = [Color.zero, Color.zero, Color.zero, cA, cB] :=
  ⟨⟨by decide, by decide⟩,
   C5_batch_clamp stripFive 3 [cA, cB, cC, cD] (by decide) (by decide),
   by decide⟩

/-! ## Batch set from a channel array -/

theorem arrayLoop_length (pixels : List Color) (start : Nat) (rows : List (List Nat))
    (mk : List Nat → Color) : ∀ nActual,
    (Strip.arrayLoop pixels start rows nActual mk).length = pixels.length := by
  intro n
  induction n with
  | zero => rfl
  | succ m ih =>
    unfold Strip.arrayLoop at ih ⊢
    rw [List.range_succ, List.foldl_append]
    simp only [List.foldl_cons, List.foldl_nil, List.length_set]
    exact ih

/-- Elementwise effect of the `set_pixels_array` write loop. -/
theorem arrayLoop_getD (pixels : List Color) (start : Nat) (rows : List (List Nat))
    (mk : List Nat → Color) : ∀ nActual, start + nActual ≤ pixels.length →
    ∀ j, j < pixels.length →
    (Strip.arrayLoop pixels start rows nActual mk).getD j Color.zero
      = if start ≤ j ∧ j < start + nActual then mk (rows.getD (j - start) [])
        else pixels.getD j Color.zero := by
  intro n
  induction n with
  | zero =>
    intro _ j hj
    rw [if_neg (by omega)]
    rfl
  | succ m ih =>
    intro hbound j hj
    have hstep : Strip.arrayLoop pixels start rows (m + 1) mk
        = (Strip.arrayLoop pixels start rows m mk).set (start + m) (mk (rows.getD m [])) := by
      unfold Strip.arrayLoop
      rw [List.range_succ, List.foldl_append]
      rfl
    rw [hstep]
    by_cases hjm : j = start + m
    · subst hjm
      rw [getD_set_self _ _ _ _ (by rw [arrayLoop_length]; omega), if_pos (by omega),
        show start + m - start = m by omega]
    · rw [getD_set_ne _ _ _ _ _ (fun h => hjm h.symm), ih (by omega) j hj]
      by_cases hcond : start ≤ j ∧ j < start + m
      · rw [if_pos hcond, if_pos (by omega)]
      · rw [if_neg hcond, if_neg (by omega)]

/-- C6: `set_pixels_array` with a column count other than 3 or 4 raises the
shape `ValueError` and writes nothing; with 4 columns it writes all four
channels of the clamped rows; with 3 columns it writes the clamped rows with
the white channel 0; both write paths clamp at the end of the buffer exactly
like `set_pixels_batch` and leave all other pixels unchanged. -/
theorem C6_array_shape (s : Strip) (start ncols : Nat) (rows : List (List Nat))
    (hlen : s.pixels.length = s.led_count) (hstart : start ≤ s.led_count) :
    (ncols ≠ 3 → ncols ≠ 4 →
        Strip.set_pixels_array s start ncols rows
          = (s, some (.valueError "Invalid array shape")))
    ∧ (ncols = 4 →
        (Strip.set_pixels_array s start ncols rows).2 = none
        ∧ (Strip.set_pixels_array s start ncols rows).1.pixels.length = s.led_count
        ∧ ∀ j, j < s.led_count →
            (Strip.set_pixels_array s start ncols rows).1.pixels.getD j Color.zero
              = if start ≤ j ∧ j < min (start + rows.length) s.led_count
                then Strip.rowColor4 (rows.getD (j - start) [])
                else s.pixels.getD j Color.zero)
    ∧ (ncols = 3 →
        (∀ row, (Strip.rowColor3 row).w = 0)
        ∧ (Strip.set_pixels_array s start ncols rows).2 = none
        ∧ (Strip.set_pixels_array s start ncols rows).1.pixels.length = s.led_count
        ∧ ∀ j, j < s.led_count →
            (Strip.set_pixels_array s start ncols rows).1.pixels.getD j Color.zero
              = if start ≤ j ∧ j < min (start + rows.length) s.led_count
                then Strip.rowColor3 (rows.getD (j - start) [])
                else s.pixels.getD j Color.zero) := by
  have hsum : start + (min (start + rows.length) s.led_count - start)
      = min (start + rows.length) s.led_count := by omega
  refine ⟨?_, ?_, ?_⟩
  · intro h3 h4
    unfold Strip.set_pixels_array
    rw [if_neg h4, if_neg h3]
  · intro h4
    subst h4
    have heq : Strip.set_pixels_array s start 4 rows
        = ({ s with
              pixels :=
                Strip.arrayLoop s.pixels start rows
                  (min (start + rows.length) s.led_count - start) Strip.rowColor4 },
            none) := by
      unfold Strip.set_pixels_array
      rw [if_pos rfl]
    refine ⟨by rw [heq], ?_, ?_⟩
    · rw [heq]
      show (Strip.arrayLoop _ _ _ _ _).length = s.led_count
      rw [arrayLoop_length, hlen]
    · intro j hj
      rw [heq]
      show (Strip.arrayLoop _ _ _ _ _).getD j Color.zero = _
      rw [arrayLoop_getD s.pixels start rows Strip.rowColor4 _ (by omega) j (by omega), hsum]
  · intro h3
    subst h3
    have heq : Strip.set_pixels_array s start 3 rows
        = ({ s with
              pixels :=
                Strip.arrayLoop s.pixels start rows
                  (min (start + rows.length) s.led_count - start) Strip.rowColor3 },
            none) := by
      unfold Strip.set_pixels_array
      rw [if_neg (by omega), if_pos rfl]
    refine ⟨fun row => rfl, by rw [heq], ?_, ?_⟩
    · rw [heq]
      show (Strip.arrayLoop _ _ _ _ _).length = s.led_count
      rw [arrayLoop_length, hlen]
    · intro j hj
      rw [heq]
      show (Strip.arrayLoop _ _ _ _ _).getD j Color.zero = _
      rw [arrayLoop_getD s.pixels start rows Strip.rowColor3 _ (by omega) j (by omega), hsum]

/-- C6 exercised on the 3-LED RGBW strip: a 5-column array raises the shape
error and leaves the strip untouched, while a 2-row 3-column array writes
two pixels with white channel 0. -/
theorem C6_array_shape_witness :
    (stripThreeW.pixels.length = stripThreeW.led_count ∧ (0 : Nat) ≤ stripThreeW.led_count)
    ∧ ((5 : Nat) ≠ 3 ∧ (5 : Nat) ≠ 4
      ∧ Strip.set_pixels_array stripThreeW 0 5 [[1, 2, 3, 4, 5]]
          = (stripThreeW, some (.valueError "Invalid array shape")))
    ∧ ((Strip.set_pixels_array stripThreeW 0 3 [[1, 2, 3], [4, 5, 6]]).2 = none
      ∧ (Strip.set_pixels_array stripThreeW 0 3 [[1, 2, 3], [4, 5, 6]]).1.pixels
          = [⟨1, 2, 3, 0⟩, ⟨4, 5, 6, 0⟩, Color.zero]
      ∧ ∀ j, j < stripThreeW.led_count →
          (Strip.set_pixels_array stripThreeW 0 3 [[1, 2, 3], [4, 5, 6]]).1.pixels.getD
              j Color.zero
            = if 0 ≤ j ∧ j < min (0 + ([[1, 2, 3], [4, 5, 6]] : List (List Nat)).length)
                  stripThreeW.led_count
              then Strip.rowColor3 (([[1, 2, 3], [4, 5, 6]] : List (List Nat)).getD (j - 0) [])
              else stripThreeW.pixels.getD j Color.zero) :=
  ⟨⟨by decide, by decide⟩,
   ⟨by decide, by decide,
    (C6_array_shape stripThreeW 0 5 [[1, 2, 3, 4, 5]] (by decide) (by decide)).1
      (by decide) (by decide)⟩,
   ⟨((C6_array_shape stripThreeW 0 3 [[1, 2, 3], [4, 5, 6]] (by decide) (by decide)).2.2
       rfl).2.1,
    by decide,
    ((C6_array_shape stripThreeW 0 3 [[1, 2, 3], [4, 5, 6]] (by decide) (by decide)).2.2
       rfl).2.2.2⟩⟩

/-! ## Non-atomicity of the batch loop on invalid input -/

/-- On a tuple of length at least 3, the tuple branch succeeds and yields
`argColor`: first four values when the length is at least 4, white 0 on a
3-tuple. -/
theorem colorOfTuple_eq (vals : List Nat) (h : 3 ≤ vals.length) :
    Strip.colorOfTuple vals = .ok (Strip.argColor (.tup vals)) := by
  unfold Strip.colorOfTuple
  by_cases h4 : 4 ≤ vals.length
  · rw [if_pos h4]
    simp [Strip.argColor, Strip.rowColor4, h4]
  · rw [if_neg h4, if_pos h]
    simp [Strip.argColor, Strip.rowColor3, h4]

/-- The batch loop on a list of handled elements followed by an element of
invalid type (all landing inside the buffer): it raises the `ValueError` at
the invalid element, after having written every preceding element. -/
theorem batchLoop_pre_other (pre : List Strip.ColorArg) :
    ∀ (count : Nat) (pixels : List Color) (idx : Nat) (rest : List Strip.ColorArg),
    pixels.length = count → (∀ a ∈ pre, Strip.goodArg a = true) →
    idx + pre.length < count →
    (Strip.batchLoop count pixels idx (pre ++ Strip.ColorArg.other :: rest)).2
        = some (.valueError "Invalid color type")
    ∧ (Strip.batchLoop count pixels idx (pre ++ Strip.ColorArg.other :: rest)).1.length
        = count
    ∧ ∀ j, j < count →
        (Strip.batchLoop count pixels idx
            (pre ++ Strip.ColorArg.other :: rest)).1.getD j Color.zero
          = if idx ≤ j ∧ j - idx < pre.length
            then Strip.argColor (pre.getD (j - idx) Strip.ColorArg.other)
            else pixels.getD j Color.zero := by
  induction pre with
  | nil =>
    intro count pixels idx rest hlen hgood hbound
    have hidx : idx < count := by simpa using hbound
    have heq : Strip.batchLoop count pixels idx ([] ++ Strip.ColorArg.other :: rest)
        = (pixels, some (.valueError "Invalid color type")) := by
      simp [Strip.batchLoop, Nat.not_le.mpr hidx]
    refine ⟨by rw [heq], by rw [heq]; exact hlen, ?_⟩
    intro j hj
    rw [heq, if_neg (by simp)]
  | cons a pre' ih =>
    intro count pixels idx rest hlen hgood hbound
    have hidx : idx < count := by simp only [List.length_cons] at hbound; omega
    have hga : Strip.goodArg a = true := hgood a (by simp)
    have heq : Strip.batchLoop count pixels idx ((a :: pre') ++ Strip.ColorArg.other :: rest)
        = Strip.batchLoop count (pixels.set idx (Strip.argColor a)) (idx + 1)
            (pre' ++ Strip.ColorArg.other :: rest) := by
      cases a with
      | col c =>
        simp [Strip.batchLoop, Nat.not_le.mpr hidx, Strip.argColor]
      | tup vals =>
        have h3 : 3 ≤ vals.length := by
          simpa [Strip.goodArg, decide_eq_true_eq] using hga
        simp [Strip.batchLoop, Nat.not_le.mpr hidx, colorOfTuple_eq vals h3]
      | other => simp [Strip.goodArg] at hga
    have hlen' : (pixels.set idx (Strip.argColor a)).length = count := by simp [hlen]
    obtain ⟨e1, e2, e3⟩ := ih count (pixels.set idx (Strip.argColor a)) (idx + 1) rest hlen'
      (fun x hx => hgood x (by simp [hx]))
      (by simp only [List.length_cons] at hbound; omega)
    refine ⟨by rw [heq]; exact e1, by rw [heq]; exact e2, ?_⟩
    intro j hj
    rw [heq, e3 j hj]
    by_cases hji : j = idx
    · subst hji
      rw [if_neg (by omega), if_pos ⟨Nat.le_refl j, by simp only [List.length_cons]; omega⟩,
        Nat.sub_self, List.getD_cons_zero, getD_set_self _ _ _ _ (by omega)]
    · by_cases hcase : idx + 1 ≤ j ∧ j - (idx + 1) < pre'.length
      · rw [if_pos hcase, if_pos ⟨by omega, by simp only [List.length_cons]; omega⟩,
          show j - idx = (j - (idx + 1)) + 1 by omega, List.getD_cons_succ]
      · rw [if_neg hcase, if_neg (by simp only [List.length_cons]; omega),
          getD_set_ne _ _ _ _ _ (fun h => hji h.symm)]

/-- C10: `set_pixels_batch` also accepts tuples of channel values (length at
least 4 uses the first four as r,g,b,w; length 3 sets w to 0), and when it
meets an element that is neither a `Color` nor a tuple it raises a
`ValueError` only after having written every preceding element, so those
earlier writes persist in the buffer (the call is not atomic). -/
theorem C10_batch_not_atomic (s : Strip) (start : Nat)
    (pre rest : List Strip.ColorArg)
    (hlen : s.pixels.length = s.led_count)
    (hgood : ∀ a ∈ pre, Strip.goodArg a = true)
    (hbound : start + pre.length < s.led_count) :
    (s.set_pixels_batch start (pre ++ Strip.ColorArg.other :: rest)).2
        = some (.valueError "Invalid color type")
    ∧ (s.set_pixels_batch start (pre ++ Strip.ColorArg.other :: rest)).1.pixels.length
        = s.led_count
    ∧ (∀ vals : List Nat, 4 ≤ vals.length →
        Strip.argColor (.tup vals)
          = ⟨vals.getD 0 0, vals.getD 1 0, vals.getD 2 0, vals.getD 3 0⟩)
    ∧ (∀ vals : List Nat, vals.length = 3 →
        Strip.argColor (.tup vals) = ⟨vals.getD 0 0, vals.getD 1 0, vals.getD 2 0, 0⟩)
    ∧ ∀ j, j < s.led_count →
        (s.set_pixels_batch start
            (pre ++ Strip.ColorArg.other :: rest)).1.pixels.getD j Color.zero
          = if start ≤ j ∧ j - start < pre.length
            then Strip.argColor (pre.getD (j - start) Strip.ColorArg.other)
            else s.pixels.getD j Color.zero := by
  obtain ⟨e1, e2, e3⟩ :=
    batchLoop_pre_other pre s.led_count s.pixels start rest hlen hgood hbound
  refine ⟨e1, e2, ?_, ?_, e3⟩
  · intro vals h4
    simp [Strip.argColor, Strip.rowColor4, h4]
  · intro vals h3
    simp [Strip.argColor, Strip.rowColor3, show ¬4 ≤ vals.length by omega]

/-- C10 on a concrete 5-LED strip: a `Color`, a 4-tuple and a 3-tuple are
written, then the invalid element raises, and the three earlier writes
persist. -/
theorem C10_batch_not_atomic_witness :
    (stripFive.pixels.length = stripFive.led_count
      ∧ (∀ a ∈ ([Strip.ColorArg.col cA, Strip.ColorArg.tup [7, 8, 9, 10, 11],
            Strip.ColorArg.tup [12, 13, 14]] : List Strip.ColorArg),
          Strip.goodArg a = true)
      ∧ 0 + ([Strip.ColorArg.col cA, Strip.ColorArg.tup [7, 8, 9, 10, 11],
            Strip.ColorArg.tup [12, 13, 14]] : List Strip.ColorArg).length
          < stripFive.led_count)
    ∧ (stripFive.set_pixels_batch 0
          ([Strip.ColorArg.col cA, Strip.ColorArg.tup [7, 8, 9, 10, 11],
            Strip.ColorArg.tup [12, 13, 14]]
            ++ Strip.ColorArg.other :: [Strip.ColorArg.col cB])).2
        = some (.valueError "Invalid color type")
    ∧ (stripFive.set_pixels_batch 0
          ([Strip.ColorArg.col cA, Strip.ColorArg.tup [7, 8, 9, 10, 11],
            Strip.ColorArg.tup [12, 13, 14]]
            ++ Strip.ColorArg.other :: [Strip.ColorArg.col cB])).1.pixels
        = [cA, ⟨7, 8, 9, 10⟩, ⟨12, 13, 14, 0⟩, Color.zero, Color.zero] :=
  ⟨⟨by decide, by decide, by decide⟩,
   (C10_batch_not_atomic stripFive 0
      [Strip.ColorArg.col cA, Strip.ColorArg.tup [7, 8, 9, 10, 11],
        Strip.ColorArg.tup [12, 13, 14]]
      [Strip.ColorArg.col cB] (by decide) (by decide) (by decide)).1,
   by decide⟩

end WS2812
